import Mathlib

/-!
# Verification of the Adore cart/booking checkout core

A shallow embedding of the checkout subsystem of the Adore repository:
the client-side cart reducer (`src/src/context/CartContext.js`) and the
server-side booking creation route (`src/routes/user.js`) together with
the `Booking` model's pre-save hook (`src/models/Booking.js`).

Modelling conventions:
- JavaScript numbers holding money are modelled as exact rationals `ℚ`;
  `Number.prototype.toFixed(2)` followed by `parseFloat` is modelled as
  exact rounding at the cent boundary (`round2`). Quantities are `ℤ`
  (the code never fractions them, but negative values are representable
  and reachable through `ADD_ITEM`).
- MongoDB ObjectIds are modelled as their string form; `isMongoId` is the
  24-hex-character check performed by `express-validator`.
- The set of persisted bookings is threaded through the server operation
  as an explicit list, so "no booking is persisted" is the statement that
  the list comes back unchanged.
-/

namespace Adore

/-- A catalog product as far as the checkout core reads it:
`_id`, `price` and `inStock` (name/image/category are display-only). -/
structure Product where
  _id : String
  price : ℚ
  inStock : Bool
  deriving DecidableEq

/-! ## Client-side cart (`src/src/context/CartContext.js`) -/

/-- One cart line: `{ product, quantity, price }` as stored in `state.items`. -/
structure CartLine where
  product : Product
  quantity : Int
  price : ℚ
  deriving DecidableEq

/-- The reducer state `{ items, totalItems, totalAmount, loading, error }`. -/
structure CartState where
  items : List CartLine
  totalItems : Int
  totalAmount : ℚ
  loading : Bool
  error : Option String
  deriving DecidableEq

/-- The `initialState` of the cart context. -/
def initialState : CartState :=
  { items := [], totalItems := 0, totalAmount := 0, loading := false, error := none }

/-- Model of `parseFloat(x.toFixed(2))`: rounding to two decimal places at the cent
boundary (float representation issues are abstracted to exact arithmetic). -/
def round2 (q : ℚ) : ℚ := ((round (q * 100) : ℤ) : ℚ) / 100

/-- Model of `newItems.reduce((sum, item) => sum + item.quantity, 0)`. -/
def totalItemsOf (items : List CartLine) : Int :=
  (items.map (fun item => item.quantity)).sum

/-- Model of the reduce over `item.price * item.quantity` followed by `toFixed(2)`. -/
def totalAmountOf (items : List CartLine) : ℚ :=
  round2 ((items.map (fun item => item.price * (item.quantity : ℚ))).sum)

/-- The `ADD_ITEM` case of `cartReducer`: find the index of an existing line
for the product; if found, bump that line's quantity in place, otherwise
append a fresh line snapshotting `product.price`; recompute totals and
clear `error`. -/
def addItem (state : CartState) (product : Product) (quantity : Int) : CartState :=
  let newItems :=
    match state.items.findIdx? (fun item => item.product._id == product._id) with
    | some existingItemIndex =>
        state.items.mapIdx (fun index item =>
          if index = existingItemIndex then
            { item with quantity := item.quantity + quantity }
          else item)
    | none =>
        state.items ++ [{ product := product, quantity := quantity, price := product.price }]
  { state with
    items := newItems
    totalItems := totalItemsOf newItems
    totalAmount := totalAmountOf newItems
    error := none }

/-- The `REMOVE_ITEM` case of `cartReducer`. -/
def removeItem (state : CartState) (productId : String) : CartState :=
  let newItems := state.items.filter (fun item => item.product._id != productId)
  { state with
    items := newItems
    totalItems := totalItemsOf newItems
    totalAmount := totalAmountOf newItems }

/-- The `UPDATE_QUANTITY` case of `cartReducer`: clamp the matching line's
quantity at `max 0 quantity`, then drop every line whose quantity is not
positive; recompute totals. -/
def updateQuantity (state : CartState) (productId : String) (quantity : Int) : CartState :=
  let newItems :=
    (state.items.map (fun item =>
      if item.product._id == productId then
        { item with quantity := max 0 quantity }
      else item)).filter (fun item => decide (0 < item.quantity))
  { state with
    items := newItems
    totalItems := totalItemsOf newItems
    totalAmount := totalAmountOf newItems }

/-- The `CLEAR_CART` case of `cartReducer`. -/
def clearCart (state : CartState) : CartState :=
  { state with items := [], totalItems := 0, totalAmount := 0 }

/-- The `SET_LOADING` case of `cartReducer`. -/
def setLoading (state : CartState) (b : Bool) : CartState :=
  { state with loading := b }

/-- The `SET_ERROR` case of `cartReducer` (also forces `loading := false`). -/
def setError (state : CartState) (msg : String) : CartState :=
  { state with error := some msg, loading := false }

/-- The `CLEAR_ERROR` case of `cartReducer`. -/
def clearError (state : CartState) : CartState :=
  { state with error := none }

/-- The three synchronous cart mutations dispatched by the UI. -/
inductive CartOp where
  | add (product : Product) (quantity : Int)
  | remove (productId : String)
  | update (productId : String) (quantity : Int)
  deriving DecidableEq

/-- Dispatch one mutation through the reducer. -/
def applyOp (state : CartState) : CartOp → CartState
  | .add product quantity => addItem state product quantity
  | .remove productId => removeItem state productId
  | .update productId quantity => updateQuantity state productId quantity

/-- Run a sequence of mutations starting from the initial empty cart. -/
def runOps (ops : List CartOp) : CartState :=
  ops.foldl applyOp initialState

/-! ## Checkout request/response shapes -/

/-- One line of the booking request body sent by the cart:
`{ productId, quantity, price }` (the client-supplied `price` is ignored
server-side). -/
structure RequestLine where
  productId : String
  quantity : Int
  price : ℚ
  deriving DecidableEq

/-- The booking request body `{ products, totalAmount }` built by the
client's `createBooking` (the client-computed `totalAmount` is ignored
server-side). -/
structure BookingRequest where
  products : List RequestLine
  totalAmount : ℚ
  deriving DecidableEq

/-- Outcome of the network call `userAPI.createBooking`, as observed by the
client: success, or an error whose response may carry
`response.data.error.message`. -/
inductive ApiOutcome where
  | ok
  | err (respMessage : Option String)
  deriving DecidableEq

/-- How the client's `createBooking` terminates. -/
inductive CallResult where
  | returned
  | threwEmptyCart
  | rethrew
  deriving DecidableEq

/-- One complete run of the client's `createBooking`: the final reducer
state, the request that was sent over the network (`none` when no network
call was made), and how the call terminated. -/
structure CreateBookingRun where
  finalState : CartState
  request : Option BookingRequest
  result : CallResult
  deriving DecidableEq

/-- Model of `error.response?.data?.error?.message || 'Failed to create booking'`
(JavaScript `||` falls through on the empty string as well as on absence). -/
def extractErrorMessage : Option String → String
  | some msg => if msg = "" then "Failed to create booking" else msg
  | none => "Failed to create booking"

/-- The client's `createBooking`: throw synchronously on an empty cart;
otherwise set `loading`, send the request built from `items` plus the
locally computed `totalAmount`, then either clear the cart (success) or
store the extracted error message and re-throw (failure); `finally` resets
`loading`. -/
def createBooking (state : CartState) (api : ApiOutcome) : CreateBookingRun :=
  if state.items.length = 0 then
    { finalState := state, request := none, result := .threwEmptyCart }
  else
    let s1 := setLoading state true
    let request : BookingRequest :=
      { products := state.items.map (fun item =>
          { productId := item.product._id
            quantity := item.quantity
            price := item.price })
        totalAmount := state.totalAmount }
    match api with
    | .ok =>
        { finalState := setLoading (clearCart s1) false
          request := some request
          result := .returned }
    | .err m =>
        { finalState := setLoading (setError s1 (extractErrorMessage m)) false
          request := some request
          result := .rethrew }

/-! ## Server-side booking creation (`src/routes/user.js`, `src/models/Booking.js`) -/

/-- One persisted booking line. -/
structure BookingLine where
  productId : String
  quantity : Int
  price : ℚ
  deriving DecidableEq

/-- A persisted `Booking` document (`totalAmount` is absent until the
pre-save hook computes it). -/
structure Booking where
  userId : String
  products : List BookingLine
  totalAmount : Option ℚ
  status : String
  deriving DecidableEq

/-- The hook `bookingSchema.pre('save')`: when `products` is non-empty, overwrite
`totalAmount` with `Σ price × quantity`. -/
def preSave (b : Booking) : Booking :=
  if 0 < b.products.length then
    { b with
      totalAmount := some ((b.products.map (fun p => p.price * (p.quantity : ℚ))).sum) }
  else b

/-- The `express-validator` check `isMongoId`: exactly 24 hexadecimal characters. -/
def isMongoId (s : String) : Bool :=
  s.data.length == 24 &&
    s.data.all (fun c => c.isDigit || ('a' ≤ c && c ≤ 'f') || ('A' ≤ c && c ≤ 'F'))

/-- The route's `express-validator` chain: `products` is a non-empty array,
every `productId` is a Mongo id, every `quantity` is an integer `≥ 1`. -/
def validateRequest (products : List RequestLine) : Bool :=
  decide (1 ≤ products.length) &&
    products.all (fun l => isMongoId l.productId && decide (1 ≤ l.quantity))

/-- The error envelope `{ message, code }` of a failure response. -/
structure ErrorBody where
  message : String
  code : String
  deriving DecidableEq

/-- A response of the `POST /bookings` route: an HTTP error with an error
envelope, or `201` with the created booking. -/
inductive ServerResponse where
  | error (status : Nat) (body : ErrorBody)
  | created (booking : Booking)
  deriving DecidableEq

/-- Model of `products.map(orderProduct => ...)` with
`existingProducts.find(p => p._id.toString() === orderProduct.productId)`:
build the price-snapshotted booking lines; `none` when some requested id
has no match in `existingProducts` (in JavaScript that dereference of
`undefined` throws, landing in the route's catch block). -/
def buildBookingLines (existingProducts : List Product) :
    List RequestLine → Option (List BookingLine)
  | [] => some []
  | orderProduct :: rest =>
    match existingProducts.find? (fun p => p._id == orderProduct.productId) with
    | none => none
    | some product =>
      match buildBookingLines existingProducts rest with
      | none => none
      | some lines =>
          some ({ productId := orderProduct.productId
                  quantity := orderProduct.quantity
                  price := product.price } :: lines)

/-- The `POST /bookings` handler: structural validation, availability
re-validation against the in-stock catalog, price snapshot, then save
(which runs the pre-save hook and appends to the booking store). -/
def createBookingServer (catalog : List Product) (bookings : List Booking)
    (userId : String) (req : BookingRequest) : ServerResponse × List Booking :=
  if !(validateRequest req.products) then
    (.error 400 { message := "Validation failed", code := "VALIDATION_ERROR" }, bookings)
  else
    let productIds := req.products.map (fun p => p.productId)
    let existingProducts := catalog.filter (fun p => productIds.contains p._id && p.inStock)
    if existingProducts.length ≠ productIds.length then
      (.error 400 { message := "One or more products are not available",
                    code := "PRODUCTS_NOT_AVAILABLE" }, bookings)
    else
      match buildBookingLines existingProducts req.products with
      | some bookingProducts =>
          let booking := preSave
            { userId := userId, products := bookingProducts,
              totalAmount := none, status := "pending" }
          (.created booking, bookings ++ [booking])
      | none =>
          (.error 500 { message := "Failed to create booking",
                        code := "BOOKING_CREATE_ERROR" }, bookings)

/-- The error code of a response, when the response is an error. -/
def respCode : ServerResponse → Option String
  | .error _ body => some body.code
  | .created _ => none

/-- The list `products.map(p => p.productId)` (route line 67): the requested ids,
duplicates included. -/
def requestedIds (req : BookingRequest) : List String :=
  req.products.map (fun p => p.productId)

/-- The query `Product.find` filtered on the requested ids and `inStock` (route lines
68–71): each catalog document that is referenced and in stock, returned at
most once no matter how often its id occurs in the request. -/
def matchedInStock (catalog : List Product) (req : BookingRequest) : List Product :=
  catalog.filter (fun p => (requestedIds req).contains p._id && p.inStock)

/-- Update-the-first-matching-line-or-append: the recursive form of the
`ADD_ITEM` item update; `addItem_items` proves it equal to the
`findIdx?`/`mapIdx` formulation taken from the source. -/
def addMerge (p : Product) (q : Int) : List CartLine → List CartLine
  | [] => [{ product := p, quantity := q, price := p.price }]
  | item :: rest =>
    if item.product._id == p._id then
      { item with quantity := item.quantity + q } :: rest
    else item :: addMerge p q rest

/-! ## Concrete fixtures used by witnesses and counterexamples -/

/-- An in-stock catalog product with a syntactically valid Mongo id. -/
def wProduct : Product :=
  { _id := "aaaaaaaaaaaaaaaaaaaaaaaa", price := 5, inStock := true }

/-- An out-of-stock catalog product with a syntactically valid Mongo id. -/
def wProductOut : Product :=
  { _id := "bbbbbbbbbbbbbbbbbbbbbbbb", price := 7, inStock := false }

/-- A one-line cart holding two units of `wProduct`. -/
def wCart : CartState :=
  { items := [{ product := wProduct, quantity := 2, price := 5 }]
    totalItems := 2, totalAmount := 10, loading := false, error := none }

/-- A structurally valid request for two units of `wProduct`, carrying a
client-chosen (tampered) unit price of 1. -/
def wReq : BookingRequest :=
  { products := [{ productId := "aaaaaaaaaaaaaaaaaaaaaaaa", quantity := 2, price := 1 }]
    totalAmount := 2 }

/-- The booking the server creates for `wReq` against the catalog
`[wProduct]`: the stored price is the catalog's 5, not the client's 1. -/
def wCreated : Booking :=
  { userId := "u"
    products := [{ productId := "aaaaaaaaaaaaaaaaaaaaaaaa", quantity := 2, price := 5 }]
    totalAmount := some ((5 : ℚ) * ((2 : ℤ) : ℚ) + 0)
    status := "pending" }

/-- A booking handed to the pre-save hook with a caller-supplied
`totalAmount` of 999 that the hook must overwrite. -/
def wBookingIn : Booking :=
  { userId := "u"
    products := [{ productId := "aaaaaaaaaaaaaaaaaaaaaaaa", quantity := 2, price := 5 }]
    totalAmount := some 999
    status := "pending" }

/-- A structurally valid request with two lines for the same (in-stock)
product id. -/
def dupReq : BookingRequest :=
  { products := [{ productId := "aaaaaaaaaaaaaaaaaaaaaaaa", quantity := 1, price := 5 },
      { productId := "aaaaaaaaaaaaaaaaaaaaaaaa", quantity := 1, price := 5 }]
    totalAmount := 10 }

/-- A structurally valid request naming one in-stock and one out-of-stock
product. -/
def missingReq : BookingRequest :=
  { products := [{ productId := "aaaaaaaaaaaaaaaaaaaaaaaa", quantity := 1, price := 5 },
      { productId := "bbbbbbbbbbbbbbbbbbbbbbbb", quantity := 1, price := 7 }]
    totalAmount := 12 }

/-! ## Helper lemmas -/

theorem mapIdx_eq_self {α : Type} (f : Nat → α → α) (l : List α)
    (h : ∀ j x, f j x = x) : l.mapIdx f = l := by
  induction l generalizing f with
  | nil => simp
  | cons a l ih => rw [List.mapIdx_cons, h 0 a, ih _ (fun j x => h (j + 1) x)]

theorem findIdx_mapIdx_eq_addMerge (p : Product) (q : Int) (l : List CartLine) :
    (match l.findIdx? (fun item => item.product._id == p._id) with
      | some existingItemIndex => l.mapIdx (fun index item =>
          if index = existingItemIndex then
            { item with quantity := item.quantity + q }
          else item)
      | none => l ++ [{ product := p, quantity := q, price := p.price }]) =
      addMerge p q l := by
  induction l with
  | nil => rfl
  | cons a l ih =>
    rw [List.findIdx?_cons]
    by_cases h : (a.product._id == p._id) = true
    · rw [if_pos h]
      show (a :: l).mapIdx _ = _
      rw [List.mapIdx_cons]
      rw [if_pos rfl, mapIdx_eq_self _ _ (fun j x => by simp)]
      simp [addMerge, h]
    · rw [if_neg h, List.findIdx?_succ]
      cases hfi : l.findIdx? (fun item => item.product._id == p._id) with
      | none =>
        rw [hfi] at ih
        show (a :: l) ++ [{ product := p, quantity := q, price := p.price }] = _
        simp only [addMerge, if_neg h, List.cons_append]
        exact congrArg (a :: ·) ih
      | some i =>
        rw [hfi] at ih
        show (a :: l).mapIdx (fun index item =>
          if index = i + 1 then { item with quantity := item.quantity + q }
          else item) = _
        rw [List.mapIdx_cons, if_neg (by omega : ¬ (0 : Nat) = i + 1)]
        have hfun : (fun (index : Nat) (item : CartLine) =>
            if index + 1 = i + 1 then { item with quantity := item.quantity + q }
            else item) = (fun index item =>
            if index = i then { item with quantity := item.quantity + q }
            else item) := by
          funext index item
          simp only [Nat.add_right_cancel_iff]
        rw [hfun]
        have ih2 : List.mapIdx (fun index item =>
            if index = i then { item with quantity := item.quantity + q }
            else item) l = addMerge p q l := ih
        rw [ih2]
        simp [addMerge, h]

theorem addItem_items (s : CartState) (p : Product) (q : Int) :
    (addItem s p q).items = addMerge p q s.items := by
  show (match s.items.findIdx? (fun item => item.product._id == p._id) with
    | some existingItemIndex => s.items.mapIdx (fun index item =>
        if index = existingItemIndex then
          { item with quantity := item.quantity + q }
        else item)
    | none => s.items ++ [{ product := p, quantity := q, price := p.price }]) =
    addMerge p q s.items
  exact findIdx_mapIdx_eq_addMerge p q s.items

theorem addMerge_of_forall_ne (p : Product) (q : Int) (l : List CartLine)
    (h : ∀ it ∈ l, ¬ it.product._id = p._id) :
    addMerge p q l = l ++ [{ product := p, quantity := q, price := p.price }] := by
  induction l with
  | nil => rfl
  | cons a l ih =>
    rw [addMerge, if_neg (by simpa using h a (List.mem_cons_self a l)),
      ih (fun it hm => h it (List.mem_cons_of_mem a hm)), List.cons_append]

theorem addMerge_append_of_forall_ne (p : Product) (q : Int) (l₁ l₂ : List CartLine)
    (h : ∀ it ∈ l₁, ¬ it.product._id = p._id) :
    addMerge p q (l₁ ++ l₂) = l₁ ++ addMerge p q l₂ := by
  induction l₁ with
  | nil => rfl
  | cons a l₁ ih =>
    rw [List.cons_append, addMerge,
      if_neg (by simpa using h a (List.mem_cons_self a l₁)),
      ih (fun it hm => h it (List.mem_cons_of_mem a hm)), List.cons_append]

theorem buildBookingLines_spec (existing : List Product) :
    ∀ (products : List RequestLine) (lines : List BookingLine),
      buildBookingLines existing products = some lines →
      lines.length = products.length ∧
      ∀ pr ∈ products.zip lines,
        pr.2.productId = pr.1.productId ∧ pr.2.quantity = pr.1.quantity ∧
        ∃ p, p ∈ existing ∧ p._id = pr.1.productId ∧ pr.2.price = p.price := by
  intro products
  induction products with
  | nil =>
    intro lines h
    obtain rfl := Option.some.inj h
    simp
  | cons op rest ih =>
    intro lines h
    have h' : (match existing.find? (fun p => p._id == op.productId) with
        | none => (none : Option (List BookingLine))
        | some product =>
          match buildBookingLines existing rest with
          | none => none
          | some ls =>
            some (({ productId := op.productId
                     quantity := op.quantity
                     price := product.price } : BookingLine) :: ls)) = some lines := h
    cases hf : existing.find? (fun p => p._id == op.productId) with
    | none =>
      rw [hf] at h'
      exact Option.noConfusion h'
    | some product =>
      rw [hf] at h'
      have h'' : (match buildBookingLines existing rest with
          | none => (none : Option (List BookingLine))
          | some ls =>
            some (({ productId := op.productId
                     quantity := op.quantity
                     price := product.price } : BookingLine) :: ls)) = some lines := h'
      cases hrec : buildBookingLines existing rest with
      | none =>
        rw [hrec] at h''
        exact Option.noConfusion h''
      | some ls =>
        rw [hrec] at h''
        obtain rfl := Option.some.inj h''
        obtain ⟨hlen, hall⟩ := ih ls hrec
        refine ⟨by simp [hlen], ?_⟩
        intro pr hpr
        rw [List.zip_cons_cons] at hpr
        rcases List.mem_cons.mp hpr with heq | hpr
        · subst heq
          have hpid0 := List.find?_some hf
          have hmem := List.mem_of_find?_eq_some hf
          exact ⟨rfl, rfl, product, hmem, by simpa using hpid0, rfl⟩
        · exact hall pr hpr

theorem buildBookingLines_ignores_price (existing : List Product)
    (f : RequestLine → ℚ) :
    ∀ products : List RequestLine,
      buildBookingLines existing (products.map (fun l => { l with price := f l })) =
        buildBookingLines existing products := by
  intro products
  induction products with
  | nil => rfl
  | cons op rest ih =>
    show (match existing.find? (fun p => p._id == op.productId) with
        | none => (none : Option (List BookingLine))
        | some product =>
          match buildBookingLines existing
              (rest.map (fun l => { l with price := f l })) with
          | none => none
          | some ls =>
            some (({ productId := op.productId
                     quantity := op.quantity
                     price := product.price } : BookingLine) :: ls)) =
      buildBookingLines existing (op :: rest)
    rw [ih]
    rfl

theorem preSave_products (b : Booking) : (preSave b).products = b.products := by
  unfold preSave
  split <;> rfl

theorem filter_length_eq_of_nodup_cover (catalog : List Product) (ids : List String)
    (hcat : (catalog.map (fun p => p._id)).Nodup) (hnd : ids.Nodup)
    (hcov : ∀ i ∈ ids, ∃ p, p ∈ catalog ∧ p._id = i ∧ p.inStock = true) :
    (catalog.filter (fun p => ids.contains p._id && p.inStock)).length = ids.length := by
  have hsub : ((catalog.filter (fun p => ids.contains p._id && p.inStock)).map
      (fun p => p._id)).Sublist (catalog.map (fun p => p._id)) :=
    (List.filter_sublist catalog).map _
  have hndl : ((catalog.filter (fun p => ids.contains p._id && p.inStock)).map
      (fun p => p._id)).Nodup := List.Nodup.sublist hsub hcat
  have hmemiff : ∀ x, (x ∈ (catalog.filter (fun p => ids.contains p._id && p.inStock)).map
      (fun p => p._id)) ↔ x ∈ ids := by
    intro x
    constructor
    · intro hx
      obtain ⟨p, hpl, rfl⟩ := List.mem_map.mp hx
      have hpred := (List.mem_filter.mp hpl).2
      have hcontains := (Bool.and_eq_true_iff.mp hpred).1
      exact List.elem_iff.mp hcontains
    · intro hx
      obtain ⟨p, hpcat, hpid, hstock⟩ := hcov x hx
      refine List.mem_map.mpr ⟨p, List.mem_filter.mpr ⟨hpcat, ?_⟩, hpid⟩
      rw [Bool.and_eq_true]
      refine ⟨?_, hstock⟩
      rw [hpid]
      exact List.elem_iff.mpr hx
  have hfin : ((catalog.filter (fun p => ids.contains p._id && p.inStock)).map
      (fun p => p._id)).toFinset = ids.toFinset := by
    ext x
    simp only [List.mem_toFinset]
    exact hmemiff x
  have hlen : ((catalog.filter (fun p => ids.contains p._id && p.inStock)).map
      (fun p => p._id)).length = ids.length := by
    rw [← List.toFinset_card_of_nodup hndl, hfin, List.toFinset_card_of_nodup hnd]
  simpa using hlen

/-! ## Claim theorems: cart side -/

/-- C4: for every sequence of `addToCart` / `removeFromCart` /
`updateQuantity` operations applied to the initial empty cart, the
resulting state's `totalItems` equals the sum of the line quantities and
`totalAmount` equals the sum of `price × quantity` rounded to two decimal
places. -/
theorem runOps_totals_consistent (ops : List CartOp) :
    (runOps ops).totalItems = totalItemsOf (runOps ops).items ∧
    (runOps ops).totalAmount = totalAmountOf (runOps ops).items := by
  have hstep : ∀ (s : CartState) (op : CartOp),
      (applyOp s op).totalItems = totalItemsOf (applyOp s op).items ∧
      (applyOp s op).totalAmount = totalAmountOf (applyOp s op).items := by
    intro s op
    cases op <;> exact ⟨rfl, rfl⟩
  have hfold : ∀ (l : List CartOp) (s : CartState),
      s.totalItems = totalItemsOf s.items ∧ s.totalAmount = totalAmountOf s.items →
      (l.foldl applyOp s).totalItems = totalItemsOf (l.foldl applyOp s).items ∧
      (l.foldl applyOp s).totalAmount = totalAmountOf (l.foldl applyOp s).items := by
    intro l
    induction l with
    | nil => intro s hs; simpa using hs
    | cons op l ih => intro s _; exact ih (applyOp s op) (hstep s op)
  refine hfold ops initialState ⟨rfl, ?_⟩
  show (0 : ℚ) = round2 _
  simp [totalAmountOf, round2, totalItemsOf, initialState]

/-- C7: on an empty cart, the client's `createBooking` throws synchronously:
no request is sent, no dispatch happens (the state — including `loading` —
is returned untouched), for every possible network oracle. -/
theorem createBooking_empty_cart (s : CartState) (api : ApiOutcome)
    (h : s.items = []) :
    createBooking s api =
      { finalState := s, request := none, result := .threwEmptyCart } := by
  unfold createBooking
  rw [if_pos (by rw [h]; rfl)]

theorem createBooking_empty_cart_witness :
    createBooking initialState .ok =
      { finalState := initialState, request := none, result := .threwEmptyCart } :=
  createBooking_empty_cart initialState .ok rfl

/-- C8: on a non-empty cart, a successful call leaves empty `items` and zero
totals with `loading = false`; a failed call leaves `items` and both totals
exactly as before, stores the extracted error message, re-throws, and also
ends with `loading = false`. -/
theorem createBooking_outcomes (s : CartState) (h : s.items ≠ []) :
    ((createBooking s .ok).finalState.items = [] ∧
     (createBooking s .ok).finalState.totalItems = 0 ∧
     (createBooking s .ok).finalState.totalAmount = 0 ∧
     (createBooking s .ok).finalState.loading = false ∧
     (createBooking s .ok).result = .returned) ∧
    ∀ m, (createBooking s (.err m)).finalState.items = s.items ∧
      (createBooking s (.err m)).finalState.totalItems = s.totalItems ∧
      (createBooking s (.err m)).finalState.totalAmount = s.totalAmount ∧
      (createBooking s (.err m)).finalState.error = some (extractErrorMessage m) ∧
      (createBooking s (.err m)).finalState.loading = false ∧
      (createBooking s (.err m)).result = .rethrew := by
  have hlen : ¬ s.items.length = 0 := by
    simpa [List.length_eq_zero] using h
  constructor
  · unfold createBooking
    rw [if_neg hlen]
    exact ⟨rfl, rfl, rfl, rfl, rfl⟩
  · intro m
    unfold createBooking
    rw [if_neg hlen]
    exact ⟨rfl, rfl, rfl, rfl, rfl, rfl⟩

theorem createBooking_outcomes_witness :
    (createBooking wCart .ok).finalState.items = [] ∧
    (createBooking wCart (.err (some "boom"))).finalState.error =
      some (extractErrorMessage (some "boom")) :=
  ⟨(createBooking_outcomes wCart (by decide)).1.1,
   ((createBooking_outcomes wCart (by decide)).2 (some "boom")).2.2.2.1⟩

/-- C9: `ADD_ITEM` clears `error` to `null` and leaves `loading` untouched
(so it modifies nothing besides `items`, the two derived totals, and
`error`), while `REMOVE_ITEM` and `UPDATE_QUANTITY` leave both `error` and
`loading` unchanged. -/
theorem cart_ops_frame (s : CartState) (p : Product) (q : Int)
    (pid : String) (q2 : Int) :
    (addItem s p q).error = none ∧ (addItem s p q).loading = s.loading ∧
    (removeItem s pid).error = s.error ∧ (removeItem s pid).loading = s.loading ∧
    (updateQuantity s pid q2).error = s.error ∧
    (updateQuantity s pid q2).loading = s.loading :=
  ⟨rfl, rfl, rfl, rfl, rfl, rfl⟩

/-- C10: adding a product that is not yet in the cart appends a line whose
quantity is exactly the argument — no clamping and no dropping of
non-positive quantities happens on this path, so `quantity ≥ 1` only holds
if the caller passes `quantity ≥ 1`. -/
theorem addItem_new_line_exact_quantity (s : CartState) (p : Product) (q : Int)
    (h : ∀ it ∈ s.items, ¬ it.product._id = p._id) :
    (addItem s p q).items =
      s.items ++ [{ product := p, quantity := q, price := p.price }] := by
  rw [addItem_items]
  exact addMerge_of_forall_ne p q s.items h

/-- C5: on a cart whose lines have pairwise-distinct product ids, adding a
product already present merges: exactly one line for that id remains, its
quantity is the old quantity plus the added one, and its price is the old
snapshot (not re-read from the product); adding an absent product appends
one line with `price = product.price`; adding the same absent product twice
with quantities `a` then `b` yields one line with quantity `a + b`. -/
theorem addItem_merge_semantics (s : CartState) (p : Product)
    (hnd : (s.items.map (fun it => it.product._id)).Nodup) :
    (∀ q line, line ∈ s.items → line.product._id = p._id →
      ((addItem s p q).items.countP (fun it => it.product._id == p._id) = 1 ∧
       ∀ it ∈ (addItem s p q).items, it.product._id = p._id →
         it.quantity = line.quantity + q ∧ it.price = line.price)) ∧
    (∀ q, (∀ it ∈ s.items, ¬ it.product._id = p._id) →
      (addItem s p q).items =
        s.items ++ [{ product := p, quantity := q, price := p.price }]) ∧
    (∀ a b, (∀ it ∈ s.items, ¬ it.product._id = p._id) →
      (addItem (addItem s p a) p b).items =
        s.items ++ [{ product := p, quantity := a + b, price := p.price }]) := by
  refine ⟨?merge, ?absent, ?twice⟩
  case merge =>
    intro q line hmem hid
    obtain ⟨l₁, l₂, hsplit⟩ := List.append_of_mem hmem
    have hnd' := hnd
    rw [hsplit, List.map_append, List.map_cons, List.nodup_append] at hnd'
    obtain ⟨hl₁, hl₂, hdisj⟩ := hnd'
    have h₁ : ∀ it ∈ l₁, ¬ it.product._id = p._id := by
      intro it hit heq
      have hmem1 : it.product._id ∈ List.map (fun it => it.product._id) l₁ :=
        List.mem_map_of_mem _ hit
      have hmem2 : it.product._id ∈
          line.product._id :: List.map (fun it => it.product._id) l₂ := by
        rw [heq, ← hid]
        exact List.mem_cons_self _ _
      exact hdisj hmem1 hmem2
    have h₂ : ∀ it ∈ l₂, ¬ it.product._id = p._id := by
      intro it hit heq
      have hmem1 : line.product._id ∈ List.map (fun it => it.product._id) l₂ := by
        rw [hid, ← heq]
        exact List.mem_map_of_mem _ hit
      exact (List.nodup_cons.mp hl₂).1 hmem1
    have hitems : (addItem s p q).items =
        l₁ ++ ({ line with quantity := line.quantity + q } :: l₂) := by
      rw [addItem_items, hsplit, addMerge_append_of_forall_ne p q l₁ _ h₁]
      have hcons : addMerge p q (line :: l₂) =
          { line with quantity := line.quantity + q } :: l₂ := by
        show (if line.product._id == p._id then
            { line with quantity := line.quantity + q } :: l₂
          else line :: addMerge p q l₂) = _
        rw [if_pos (by simpa using hid)]
      rw [hcons]
    constructor
    · rw [hitems, List.countP_append, List.countP_cons]
      have c₁ : l₁.countP (fun it => it.product._id == p._id) = 0 := by
        rw [List.countP_eq_zero]
        intro it hit
        simpa using h₁ it hit
      have c₂ : l₂.countP (fun it => it.product._id == p._id) = 0 := by
        rw [List.countP_eq_zero]
        intro it hit
        simpa using h₂ it hit
      simp [c₁, c₂, hid]
    · intro it hit hitid
      rw [hitems] at hit
      rcases List.mem_append.mp hit with hin | hin
      · exact absurd hitid (h₁ it hin)
      · rcases List.mem_cons.mp hin with rfl | hin
        · exact ⟨rfl, rfl⟩
        · exact absurd hitid (h₂ it hin)
  case absent =>
    intro q habs
    rw [addItem_items]
    exact addMerge_of_forall_ne p q s.items habs
  case twice =>
    intro a b habs
    rw [addItem_items, addItem_items, addMerge_of_forall_ne p a s.items habs,
      addMerge_append_of_forall_ne p b s.items _ habs]
    have hsingle : addMerge p b [{ product := p, quantity := a, price := p.price }] =
        [{ product := p, quantity := a + b, price := p.price }] := by
      show (if p._id == p._id then
          [{ product := p, quantity := a + b, price := p.price }]
        else { product := p, quantity := a, price := p.price } :: addMerge p b []) = _
      rw [if_pos (by simp)]
    rw [hsingle]

theorem addItem_merge_semantics_witness :
    (addItem wCart wProduct 3).items.countP
      (fun it => it.product._id == wProduct._id) = 1 :=
  ((addItem_merge_semantics wCart wProduct (by decide)).1 3
    { product := wProduct, quantity := 2, price := 5 } (by decide) (by decide)).1

/-- C6: for a cart whose lines all have quantity `≥ 1`, `updateQuantity`
with a positive quantity rewrites the matching line's quantity to
`max 0 quantity` and keeps everything else; with a non-positive quantity
(in particular `0` and `-1`) the matching line is removed entirely — the
result is exactly the `REMOVE_ITEM`-style filter — and no line for that id
remains. -/
theorem updateQuantity_semantics (s : CartState) (pid : String) (q : Int)
    (hq : ∀ it ∈ s.items, 1 ≤ it.quantity) :
    (0 < q → (updateQuantity s pid q).items =
      s.items.map (fun it =>
        if it.product._id == pid then { it with quantity := max 0 q } else it)) ∧
    (q ≤ 0 → ((updateQuantity s pid q).items =
        s.items.filter (fun it => !(it.product._id == pid)) ∧
      ∀ it ∈ (updateQuantity s pid q).items, ¬ it.product._id = pid)) := by
  constructor
  · intro hpos
    show (s.items.map _).filter _ = _
    rw [List.filter_eq_self]
    intro b hb
    obtain ⟨a, ha, rfl⟩ := List.mem_map.mp hb
    by_cases hmatch : (a.product._id == pid) = true
    · rw [if_pos hmatch]
      have hlt : (0 : Int) < max 0 q := by omega
      simpa using hlt
    · rw [if_neg hmatch]
      simpa using lt_of_lt_of_le Int.zero_lt_one (hq a ha)
  · intro hneg
    have hfilter : ∀ l : List CartLine, (∀ it ∈ l, 1 ≤ it.quantity) →
        ((l.map (fun it =>
          if it.product._id == pid then { it with quantity := max 0 q }
          else it)).filter (fun it => decide (0 < it.quantity)) =
          l.filter (fun it => !(it.product._id == pid))) := by
      intro l
      induction l with
      | nil => intro _; rfl
      | cons a l ih =>
        intro hall
        have htail := ih (fun it hit => hall it (List.mem_cons_of_mem a hit))
        simp only [List.map_cons, List.filter_cons]
        by_cases hmatch : (a.product._id == pid) = true
        · rw [if_pos hmatch]
          rw [if_neg (by simp; omega), if_neg (by simp [hmatch]), htail]
        · rw [if_neg hmatch]
          have hkeep : decide (0 < a.quantity) = true := by
            simpa using lt_of_lt_of_le Int.zero_lt_one
              (hall a (List.mem_cons_self a l))
          rw [if_pos hkeep, if_pos (by simp [hmatch]), htail]
    have hmain : (updateQuantity s pid q).items =
        s.items.filter (fun it => !(it.product._id == pid)) :=
      hfilter s.items hq
    refine ⟨hmain, ?_⟩
    intro it hit
    rw [hmain] at hit
    simpa using (List.mem_filter.mp hit).2

theorem updateQuantity_semantics_witness :
    (updateQuantity wCart wProduct._id (-1)).items = [] :=
  (((updateQuantity_semantics wCart wProduct._id (-1) (by decide)).2
    (by decide)).1).trans (by decide)

theorem addItem_new_line_exact_quantity_witness :
    (addItem initialState wProduct (-3)).items =
      initialState.items ++
        [{ product := wProduct, quantity := -3, price := wProduct.price }] :=
  addItem_new_line_exact_quantity initialState wProduct (-3) (by decide)

/-! ## Claim theorems: server side -/

/-- C1 counterexample: a structurally valid request with two lines for the
same in-stock product is rejected with `PRODUCTS_NOT_AVAILABLE`, even
though every distinct requested product id matches an in-stock catalog
product — the route compares the matched count against the number of
request lines, not against the number of distinct ids. -/
theorem availability_check_rejects_valid_duplicate :
    validateRequest dupReq.products = true ∧
    (requestedIds dupReq).dedup = ["aaaaaaaaaaaaaaaaaaaaaaaa"] ∧
    wProduct._id = "aaaaaaaaaaaaaaaaaaaaaaaa" ∧
    wProduct.inStock = true ∧
    createBookingServer [wProduct] [] "u" dupReq =
      (.error 400 { message := "One or more products are not available",
                    code := "PRODUCTS_NOT_AVAILABLE" }, []) := by
  decide

/-- C1 (amended): under structural validity, if fewer in-stock catalog
products match than there are distinct requested ids, the request is
rejected with `PRODUCTS_NOT_AVAILABLE` and the booking store is unchanged;
and when the requested ids are pairwise distinct and every one matches an
in-stock product, the request is not rejected by this check. -/
theorem availability_check (catalog : List Product) (bookings : List Booking)
    (userId : String) (req : BookingRequest)
    (hval : validateRequest req.products = true)
    (hcat : (catalog.map (fun p => p._id)).Nodup) :
    ((matchedInStock catalog req).length < (requestedIds req).dedup.length →
      createBookingServer catalog bookings userId req =
        (.error 400 { message := "One or more products are not available",
                      code := "PRODUCTS_NOT_AVAILABLE" }, bookings)) ∧
    ((requestedIds req).Nodup →
      (∀ i ∈ requestedIds req, ∃ p, p ∈ catalog ∧ p._id = i ∧ p.inStock = true) →
      respCode (createBookingServer catalog bookings userId req).1 ≠
        some "PRODUCTS_NOT_AVAILABLE") := by
  constructor
  · intro hlt
    have hle : (requestedIds req).dedup.length ≤ (requestedIds req).length :=
      List.Sublist.length_le (List.dedup_sublist _)
    have hne : (catalog.filter (fun p =>
        ((req.products.map (fun p => p.productId)).contains p._id && p.inStock))).length ≠
        (req.products.map (fun p => p.productId)).length := by
      have hlt' : (matchedInStock catalog req).length < (requestedIds req).length := by
        omega
      unfold matchedInStock requestedIds at hlt'
      omega
    simp only [createBookingServer, hval, Bool.not_true]
    rw [if_neg (by simp), if_pos hne]
  · intro hnd hcov
    have hlen := filter_length_eq_of_nodup_cover catalog (requestedIds req) hcat hnd hcov
    have heq : (catalog.filter (fun p =>
        ((req.products.map (fun p => p.productId)).contains p._id && p.inStock))).length =
        (req.products.map (fun p => p.productId)).length := by
      unfold matchedInStock requestedIds at hlen
      exact hlen
    simp only [createBookingServer, hval, Bool.not_true]
    rw [if_neg (by simp), if_neg (by omega)]
    cases hbl : buildBookingLines
        (catalog.filter (fun p =>
          ((req.products.map (fun p => p.productId)).contains p._id && p.inStock)))
        req.products with
    | none => simp [respCode]
    | some lines => simp [respCode]

theorem availability_check_witness :
    createBookingServer [wProduct, wProductOut] [] "u" missingReq =
      (.error 400 { message := "One or more products are not available",
                    code := "PRODUCTS_NOT_AVAILABLE" }, []) :=
  (availability_check [wProduct, wProductOut] [] "u" missingReq
    (by decide) (by decide)).1 (by decide)

/-- C2: every accepted booking-creation request produces a booking whose
lines carry, position by position, the requested product id and quantity
together with the price of the matching in-stock catalog record fetched at
creation time; the client-supplied per-line prices have no effect on the
outcome whatsoever. -/
theorem created_booking_price_snapshot (catalog : List Product)
    (bookings : List Booking) (userId : String) (req : BookingRequest)
    (b : Booking) (bookings2 : List Booking)
    (h : createBookingServer catalog bookings userId req = (.created b, bookings2)) :
    b.products.length = req.products.length ∧
    (∀ pr ∈ req.products.zip b.products,
      pr.2.productId = pr.1.productId ∧ pr.2.quantity = pr.1.quantity ∧
      ∃ p, p ∈ catalog ∧ p._id = pr.1.productId ∧ p.inStock = true ∧
        pr.2.price = p.price) ∧
    (∀ f : RequestLine → ℚ,
      createBookingServer catalog bookings userId
        { req with products := req.products.map (fun l => { l with price := f l }) } =
        createBookingServer catalog bookings userId req) := by
  have hprice : ∀ f : RequestLine → ℚ,
      createBookingServer catalog bookings userId
        { req with products := req.products.map (fun l => { l with price := f l }) } =
        createBookingServer catalog bookings userId req := by
    intro f
    have h1 : validateRequest (req.products.map (fun l => { l with price := f l })) =
        validateRequest req.products := by
      unfold validateRequest
      rw [List.length_map, List.all_map]
      rfl
    have h2 : (req.products.map (fun l => { l with price := f l })).map
        (fun p => p.productId) = req.products.map (fun p => p.productId) := by
      rw [List.map_map]
      rfl
    have h3 := buildBookingLines_ignores_price
      (catalog.filter (fun p =>
        ((req.products.map (fun p => p.productId)).contains p._id && p.inStock)))
      f req.products
    simp only [createBookingServer, h1, h2, h3]
  obtain ⟨lines, hlines, hbprod⟩ : ∃ lines,
      buildBookingLines (catalog.filter (fun p =>
        ((req.products.map (fun p => p.productId)).contains p._id && p.inStock)))
        req.products = some lines ∧ b.products = lines := by
    simp only [createBookingServer] at h
    by_cases hv : (!validateRequest req.products) = true
    · rw [if_pos hv] at h
      simp at h
    · rw [if_neg hv] at h
      by_cases hlen2 : (catalog.filter (fun p =>
          ((req.products.map (fun p => p.productId)).contains p._id && p.inStock))).length ≠
          (req.products.map (fun p => p.productId)).length
      · rw [if_pos hlen2] at h
        simp at h
      · rw [if_neg hlen2] at h
        cases hbl : buildBookingLines
            (catalog.filter (fun p =>
              ((req.products.map (fun p => p.productId)).contains p._id && p.inStock)))
            req.products with
        | none =>
          rw [hbl] at h
          simp at h
        | some lines =>
          rw [hbl] at h
          have h' : (ServerResponse.created (preSave
              { userId := userId
                products := lines
                totalAmount := none
                status := "pending" }), bookings ++ [preSave
              { userId := userId
                products := lines
                totalAmount := none
                status := "pending" }]) = (ServerResponse.created b, bookings2) := h
          rw [Prod.mk.injEq] at h'
          obtain ⟨h1, h2⟩ := h'
          injection h1 with hb
          exact ⟨lines, rfl, by rw [← hb, preSave_products]⟩
  obtain ⟨hlen, hall⟩ := buildBookingLines_spec _ req.products lines hlines
  refine ⟨by rw [hbprod, hlen], ?_, hprice⟩
  intro pr hpr
  rw [hbprod] at hpr
  obtain ⟨hpid, hqty, p, hpmem, hpid2, hpprice⟩ := hall pr hpr
  obtain ⟨hpcat, hpred⟩ := List.mem_filter.mp hpmem
  have hstock : p.inStock = true := (Bool.and_eq_true_iff.mp hpred).2
  exact ⟨hpid, hqty, p, hpcat, hpid2, hstock, hpprice⟩

theorem created_booking_price_snapshot_witness :
    wCreated.products.length = wReq.products.length :=
  (created_booking_price_snapshot [wProduct] [] "u" wReq wCreated [wCreated] rfl).1

/-- C3: saving a booking with a non-empty products list overwrites its
`totalAmount` with `Σ price × quantity`; a caller-supplied `totalAmount`
is ignored by the hook, and the client-sent request-body total is ignored
by the route. -/
theorem preSave_total_recomputed (b : Booking) (h : b.products ≠ []) :
    (preSave b).totalAmount =
      some ((b.products.map (fun p => p.price * (p.quantity : ℚ))).sum) ∧
    (∀ t, preSave { b with totalAmount := t } = preSave b) ∧
    (∀ (catalog : List Product) (bookings : List Booking) (userId : String)
        (req : BookingRequest) (t : ℚ),
      createBookingServer catalog bookings userId { req with totalAmount := t } =
        createBookingServer catalog bookings userId req) := by
  have hlen : 0 < b.products.length := List.length_pos.mpr h
  refine ⟨?_, ?_, ?_⟩
  · unfold preSave
    rw [if_pos hlen]
  · intro t
    simp [preSave, hlen]
  · intro catalog bookings userId req t
    rfl

theorem preSave_total_recomputed_witness :
    (preSave wBookingIn).totalAmount =
      some ((wBookingIn.products.map (fun p => p.price * (p.quantity : ℚ))).sum) :=
  (preSave_total_recomputed wBookingIn (by decide)).1

end Adore
